import Mathlib

/-!
Verification development for the onboarding validation-and-generation service.

The definitions below are a shallow embedding of the JavaScript sources:

* the eligibility resolver in
  src/validation_generation/validation/blackbaudDiscountValidator.js
  (id sanitisation, candidate disambiguation, bucket derivation, the
  top-level validateDiscount flow);
* the per-organization job orchestrator in src/unnamed/part_003
  (the JOBS registry, the trigger endpoint, the organization-level
  gates, runMemberValidationsSequential with its onUpdate callback,
  and the generation/attachment tail of the run);
* the pricing assembly in src/unnamed/part_003 (buildPdfPayload) and in
  src/validation_generation/server.js (buildPayload / rateForMember).

Modelling conventions, used consistently below:

* JavaScript strings are Lean String; truthiness of a string is the
  test against the empty string, exactly where the source relies on it.
* Airtable record fields are modelled as the String-valued fields the
  code reads under its default field names (the env-var overrides of
  field names are configuration, not behaviour).  Checkbox-like values
  go through asOne, as in the source.
* External collaborators (Directory search, code fetches, Airtable
  writes, the PDF renderer) are oracles supplied in an environment
  structure; each call the code makes is recorded as an event so that
  "never calls the Directory" style properties are statements about
  the emitted trace.
* JS Date values reaching the month arithmetic are modelled as epoch
  milliseconds (Int); calendar dates are y/m/d triples.  The float
  comparison months <= 12 + 1e-6 is modelled exactly over the
  integers (the claims under proof never sit on that boundary).
* Exceptions are Except String; a JS try/catch that swallows an error
  is a match that discards the error branch, exactly where the source
  has one.
-/

/-! ### Small string helpers (semantics of the JS primitives used) -/

/-- ASCII lower-casing of one character, as String.prototype.toLowerCase
acts on the ASCII range used by the data. -/
def lowerChar (c : Char) : Char :=
  if 'A' ≤ c ∧ c ≤ 'Z' then Char.ofNat (c.toNat + 32) else c

/-- JS String.prototype.toLowerCase restricted to ASCII. -/
def lowerStr (s : String) : String := ⟨s.data.map lowerChar⟩

/-- JS String.prototype.trim. -/
def trimStr (s : String) : String :=
  ⟨((s.data.dropWhile Char.isWhitespace).reverse.dropWhile Char.isWhitespace).reverse⟩

/-- Boolean infix test on character lists. -/
def isInfixOfB (p : List Char) : List Char → Bool
  | [] => p.isEmpty
  | c :: rest => p.isPrefixOf (c :: rest) || isInfixOfB p rest

/-- JS String.prototype.includes. -/
def containsSub (s pat : String) : Bool := isInfixOfB pat.data s.data

/-- Insertion-ordered de-duplication: the observable content of a JS Set
built by repeated add, read back with Array.from. -/
def dedupKeep (l : List String) : List String :=
  l.foldl (fun acc x => if acc.contains x then acc else acc ++ [x]) []

/-! ### Resolver: id sanitisation (sanitizeId) -/

/-- Whitespace class of the sanitizeId regexes: \s plus U+200B and U+00A0. -/
def sanSpace (c : Char) : Bool :=
  c.isWhitespace || c = ' ' || c = Char.ofNat 0x200B

/-- Worker for collapseRuns; the flag records that the previous
character was part of a space run already emitted. -/
def collapseRunsAux (inRun : Bool) : List Char → List Char
  | [] => []
  | c :: rest =>
    if sanSpace c then
      if inRun then collapseRunsAux true rest
      else ' ' :: collapseRunsAux true rest
    else c :: collapseRunsAux false rest

/-- Collapse every maximal run of sanSpace characters to one space;
embeds the replace of /[\s​ ]+/g by a single space. -/
def collapseRuns (l : List Char) : List Char := collapseRunsAux false l

/-- Trailing-punctuation class stripped by sanitizeId. -/
def sanPunct (c : Char) : Bool := c = '.' || c = ',' || c = ';' || c = ':'

/-- sanitizeId from blackbaudDiscountValidator.js: trim, collapse inner
whitespace (incl. zero-width and NBSP) to single spaces, strip trailing
punctuation.  The second replace of the source is a no-op after the
first and is therefore absorbed. -/
def sanitizeId (s : String) : String :=
  ⟨((collapseRuns (trimStr s).data).reverse.dropWhile sanPunct).reverse⟩

/-! ### Resolver: name normalisation and scoring -/

/-- Character step of normalizeName: after lower-casing, every character
that is not a lower-case letter becomes a space (the source replaces
[^a-z\s] by a space and then collapses \s+; diacritics are previously
stripped, which is the identity on the ASCII data modelled here). -/
def nameChar (c : Char) : Char :=
  if 'a' ≤ c ∧ c ≤ 'z' then c else ' '

/-- Maximal runs of non-separator characters, as strings: the split /
filter-empty combination the source uses. -/
def tokenize (sep : Char → Bool) (cur : List Char) : List Char → List String
  | [] => if cur.isEmpty then [] else [⟨cur.reverse⟩]
  | c :: rest =>
    if sep c then
      if cur.isEmpty then tokenize sep [] rest
      else (⟨cur.reverse⟩ : String) :: tokenize sep [] rest
    else tokenize sep (c :: cur) rest

/-- Join tokens with single spaces (String.intercalate of the source,
written structurally). -/
def joinSpace : List String → String
  | [] => ""
  | [t] => t
  | t :: rest => t ++ " " ++ joinSpace rest

/-- Letter runs of a name after lower-casing; the tokens normalizeName
keeps. -/
def nameTokens (s : String) : List String :=
  tokenize (· = ' ') [] ((lowerStr s).data.map nameChar)

/-- normalizeName from blackbaudDiscountValidator.js. -/
def normalizeName (s : String) : String :=
  joinSpace (nameTokens s)

/-- splitName from blackbaudDiscountValidator.js, returning
(first, last); a single token is all first name with empty last. -/
def splitName (norm : String) : String × String :=
  let parts := tokenize (fun c => c.isWhitespace) [] norm.data
  match parts with
  | [] => ("", "")
  | [p] => (p, "")
  | _ => (joinSpace parts.dropLast, parts.getLastD "")

/-- JS String.prototype.startsWith. -/
def startsWithB (s pre : String) : Bool := pre.data.isPrefixOf s.data

/-- scoreName from blackbaudDiscountValidator.js.  The Jaccard test
jac >= 0.5 with jac = inter / max 1 (|c| + |e| - inter) is taken
exactly: 2 * inter >= max 1 (|c| + |e| - inter); for the small integer
token counts involved the float computation of the source agrees. -/
def scoreName (candidateName expectedName : String) : Nat :=
  let c := normalizeName candidateName
  let e := normalizeName expectedName
  if c = "" ∨ e = "" then 0
  else if c = e then 100
  else
    let cs := splitName c
    let es := splitName e
    if cs.2 ≠ "" ∧ es.2 ≠ "" ∧ cs.2 = es.2 ∧
        (startsWithB cs.1 es.1 ∨ startsWithB es.1 cs.1) then 85
    else
      let ct := dedupKeep (tokenize (· = ' ') [] c.data)
      let et := dedupKeep (tokenize (· = ' ') [] e.data)
      let inter := (ct.filter (fun t => et.contains t)).length
      if 2 * inter ≥ max 1 (ct.length + et.length - inter) then 60 else 0

/-! ### Resolver: candidate pool and disambiguation -/

/-- Directory search candidate (transient), with the fields the resolver
reads; email models email.address || email of the source. -/
structure Candidate where
  id : String
  name : String
  email : String
  lookup_id : String
deriving Repr, DecidableEq

/-- normalizeEmail from blackbaudDiscountValidator.js. -/
def normalizeEmail (s : String) : String := lowerStr (trimStr s)

/-- First entry of maximal score; this is scored[0] of the source after
its stable descending sort (ties keep the earlier pool element). -/
def argmaxFirst : List (Candidate × Nat) → Option (Candidate × Nat)
  | [] => none
  | x :: xs => some (xs.foldl (fun b y => if b.2 < y.2 then y else b) x)

/-- Drop the first occurrence of a pair from the scored list. -/
def removeFirstPair : List (Candidate × Nat) → (Candidate × Nat) → List (Candidate × Nat)
  | [], _ => []
  | x :: xs, a => if x = a then xs else x :: removeFirstPair xs a

/-- Maximal score in a scored list, 0 when empty; scored[1]?.s ?? 0 of
the source is this value on the list with the top entry removed. -/
def maxScore (l : List (Candidate × Nat)) : Nat :=
  l.foldl (fun m y => max m y.2) 0

/-- resolveCandidate from blackbaudDiscountValidator.js.  The stable
sort of the source is represented by argmaxFirst (= scored[0]) and by
maxScore of the remainder (= scored[1]?.s ?? 0); the unique last-name
fallback needs no ordering because it fires only on a singleton. -/
def resolveCandidate (results : List Candidate) (searchId email name : String) :
    Option Candidate :=
  let idStr := trimStr searchId
  let pool := results.filter (fun r => r.lookup_id ≠ idStr)
  if pool.length ≤ 1 then pool.head?
  else
    let emailNorm := normalizeEmail email
    let emailHit :=
      if emailNorm ≠ "" then pool.find? (fun r => normalizeEmail r.email = emailNorm)
      else none
    match emailHit with
    | some r => some r
    | none =>
      if name ≠ "" then
        let scored := pool.map (fun r => (r, scoreName r.name name))
        match argmaxFirst scored with
        | none => none
        | some top =>
          if 0 < top.2 then
            let second := maxScore (removeFirstPair scored top)
            if 85 ≤ top.2 ∨ second + 15 ≤ top.2 then some top.1
            else
              let eLast := (splitName (normalizeName name)).2
              if eLast ≠ "" then
                let lastMatches :=
                  scored.filter (fun x => (splitName (normalizeName x.1.name)).2 = eLast)
                match lastMatches with
                | [x] => some x.1
                | _ => none
              else none
          else none
      else none

/-! ### Resolver: calendar dates, affiliation codes, bucket derivation -/

/-- Calendar date (year/month/day), the shape of a constituent code
start value and of the dates the resolver reports. -/
structure Ymd where
  y : Nat
  m : Nat
  d : Nat
deriving Repr, DecidableEq

/-- Gregorian leap-year test. -/
def isLeap (y : Nat) : Bool := (y % 4 = 0 ∧ y % 100 ≠ 0) ∨ y % 400 = 0

/-- Length of a month in the Gregorian calendar. -/
def daysInMonth (y m : Nat) : Nat :=
  if m = 2 then (if isLeap y then 29 else 28)
  else if m = 4 ∨ m = 6 ∨ m = 9 ∨ m = 11 then 30
  else 31

/-- Days in the years strictly before year y (proleptic Gregorian,
counted from year 1). -/
def daysBeforeYear (y : Nat) : Nat :=
  365 * (y - 1) + (y - 1) / 4 - (y - 1) / 100 + (y - 1) / 400

/-- Days in the months of year y strictly before month m. -/
def daysBeforeMonth (y m : Nat) : Nat :=
  ((List.range (m - 1)).map (fun i => daysInMonth y (i + 1))).sum

/-- Days between the Unix epoch and a calendar date (negative before
1970).  This is the value of a JS Date holding that civil date, in
days; the source builds such dates with new Date(y, m-1, d). -/
def ymdToDays (x : Ymd) : Int :=
  ((daysBeforeYear x.y + daysBeforeMonth x.y x.m + (x.d - 1) : Nat) : Int) - 719162

/-- Epoch milliseconds of a calendar date (midnight).  The source uses
the host timezone offset; the model fixes UTC, which shifts every code
date uniformly and is immaterial to the claims proved here. -/
def ymdToMs (x : Ymd) : Int := ymdToDays x * 86400000

/-- Exact form of monthsBetween(dt, now) <= 12 + 1e-6 from the source:
monthsBetween divides the clamped millisecond difference by
1000*60*60*24*30.4375 = 2629800000, and the threshold 12 + 1e-6 is the
rational 12000001/1000000. -/
def monthsLe12 (dtMs nowMs : Int) : Bool :=
  max 0 (nowMs - dtMs) * 1000000 ≤ 12000001 * 2629800000

/-- Constituent code as the resolver reads it: description, inactive
flag, optional start date (y/m/d object), optional modified/added
timestamps (epoch ms; the string-to-Date parsing of the source is
absorbed into the model). -/
structure Code where
  description : String
  inactive : Bool
  start : Option Ymd
  date_modified : Option Int
  date_added : Option Int
deriving Repr, DecidableEq

/-- Append a bucket if not already present: JS Set.add keeping
insertion order. -/
def addBucket (acc : List String) (b : String) : List String :=
  if acc.contains b then acc else acc ++ [b]

/-- Bucket contribution of one code, mirroring the loop body of
inferBucketsFromCodes. -/
def bucketOfCode (now : Int) (acc : List String) (c : Code) : List String :=
  let desc := lowerStr (trimStr c.description)
  if desc = "student" then
    if !c.inactive then addBucket acc "Current UTS Student" else acc
  else if desc = "staff" then
    if !c.inactive then addBucket acc "Current UTS Staff"
    else
      match c.date_modified.orElse (fun _ => c.date_added) with
      | some t =>
        if monthsLe12 t now then
          addBucket acc "Former UTS Staff (employed within the last 12 months)"
        else addBucket acc "Former UTS Staff (employed more than 12 months ago)"
      | none => addBucket acc "Former UTS Staff (employed more than 12 months ago)"
  else if desc = "alumni" then
    match (c.start.map ymdToMs).orElse (fun _ => c.date_added) with
    | some t =>
      if monthsLe12 t now then
        addBucket acc "UTS Alumni (graduated within the last 12 months)"
      else addBucket acc "UTS Alumni (graduated more than 12 months ago)"
    | none => addBucket acc "UTS Alumni (graduated more than 12 months ago)"
  else acc

/-- inferBucketsFromCodes from blackbaudDiscountValidator.js. -/
def inferBucketsFromCodes (codes : List Code) (now : Int) : List String :=
  codes.foldl (bucketOfCode now) []

/-- Fixed precedence order of choosePrimaryBucket. -/
def bucketOrder : List String :=
  ["Current UTS Student",
   "Current UTS Staff",
   "UTS Alumni (graduated within the last 12 months)",
   "UTS Alumni (graduated more than 12 months ago)",
   "Former UTS Staff (employed within the last 12 months)",
   "Former UTS Staff (employed more than 12 months ago)"]

/-- choosePrimaryBucket from blackbaudDiscountValidator.js. -/
def choosePrimaryBucket (buckets : List String) : Option String :=
  match bucketOrder.find? (fun b => buckets.contains b) with
  | some b => some b
  | none => buckets.head?

/-- addMonths(date, 12) of the source: setMonth(getMonth() + 12) moves
to the same month of the next year keeping the day number, and JS date
normalisation rolls a day overflow (e.g. Feb 29 to a non-leap year)
into the following month. -/
def addMonths12 (x : Ymd) : Ymd :=
  let y := x.y + 1
  if x.d ≤ daysInMonth y x.m then ⟨y, x.m, x.d⟩
  else
    let d := x.d - daysInMonth y x.m
    if x.m = 12 then ⟨y + 1, 1, d⟩ else ⟨y, x.m + 1, d⟩

/-- alumniCommencementFromCodes from blackbaudDiscountValidator.js:
start date of the first alumni code carrying one. -/
def alumniCommencementFromCodes (codes : List Code) : Option Ymd :=
  match codes.find? (fun c => lowerStr (trimStr c.description) = "alumni" ∧ c.start.isSome) with
  | some c => c.start
  | none => none

/-! ### Resolver: date-of-birth disambiguation -/

/-- Components extracted by parseDobInput; m and d are absent for the
short year and year-month forms. -/
structure DobParts where
  y : Nat
  m : Option Nat
  d : Option Nat
deriving Repr, DecidableEq

/-- Birthdate object of a full constituent record; 0 stands for a
missing component (the source turns non-numbers into null via
Number(x) || null, which also nulls 0). -/
structure Birthdate where
  y : Nat
  m : Nat
  d : Nat
deriving Repr, DecidableEq

/-- Maximal digit runs of a string, as numbers.  parseDobInput reaches
these by replacing non-digits with dashes, collapsing and stripping
them, then splitting on the dash. -/
def digitRuns (s : String) : List Nat :=
  (tokenize (fun c => !c.isDigit) [] s.data).map
    (fun t => t.data.foldl (fun a c => a * 10 + (c.toNat - 48)) 0)

/-- Test that String(n).length === 4, i.e. that the parsed number has a
four-digit decimal representation. -/
def isLen4 (n : Nat) : Bool := 1000 ≤ n ∧ n ≤ 9999

/-- parseDobInput from blackbaudDiscountValidator.js. -/
def parseDobInput (dob : String) : Option DobParts :=
  let s := trimStr dob
  if s = "" then none
  else
    match digitRuns s with
    | [a, b, c] =>
      if isLen4 a then some ⟨a, some b, some c⟩
      else if isLen4 c then some ⟨c, some b, some a⟩
      else none
    | [a, b] => if isLen4 a then some ⟨a, some b, none⟩ else none
    | [a] => if isLen4 a then some ⟨a, none, none⟩ else none
    | _ => none

/-- matchDob from blackbaudDiscountValidator.js: every supplied (truthy)
expected component must equal the candidate component; candidate
components equal to 0 count as absent. -/
def matchDob (birth : Option Birthdate) (e : DobParts) : Bool :=
  match birth with
  | none => false
  | some b =>
    (decide (e.y = 0) || decide (b.y ≠ 0 ∧ b.y = e.y)) &&
    (match e.m with
     | some mv => decide (mv = 0) || decide (b.m ≠ 0 ∧ b.m = mv)
     | none => true) &&
    (match e.d with
     | some dv => decide (dv = 0) || decide (b.d ≠ 0 ∧ b.d = dv)
     | none => true)

/-! ### Resolver: the Directory oracle and validateDiscount -/

/-- Deterministic model of the external Directory for one resolve call:
the search response, per-candidate code fetches, and per-candidate full
records for the DOB path.  now is the clock used by the bucket
derivation. -/
structure Directory where
  now : Int
  searchStatus : Nat
  searchValue : List Candidate
  codesStatus : String → Nat
  codesOf : String → List Code
  detailStatus : String → Nat
  birthOf : String → Option Birthdate

/-- resolveByDob from blackbaudDiscountValidator.js: keep the pool
candidates whose full record was fetched (status 200) and whose
birthdate matches every supplied component; accept only a unique
match. -/
def resolveByDob (dir : Directory) (pool : List Candidate) (dobStr : String) :
    Option Candidate :=
  match parseDobInput dobStr with
  | none => none
  | some target =>
    let hits := pool.filter
      (fun r => dir.detailStatus r.id = 200 && matchDob (dir.birthOf r.id) target)
    match hits with
    | [r] => some r
    | _ => none

/-- Result object of validateDiscount, with the fields the orchestrator
and the claims read.  candidates carries the ambiguous listing;
candidatesWithBuckets the invalid listing (each pool candidate with its
derived buckets). -/
structure VOut where
  valid : Bool := false
  status : String
  reason : String := ""
  expected_bucket : Option String := none
  derived_buckets : List String := []
  primary_bucket : Option String := none
  bb_record_id : Option String := none
  candidate : Option Candidate := none
  codes : List Code := []
  qualifies_other : Bool := false
  alumni_commencement : Option Ymd := none
  alumni_expires_at : Option Ymd := none
  candidates : List Candidate := []
  candidatesWithBuckets : List (Candidate × List String) := []
deriving Repr, DecidableEq

/-- evaluateSingle from validateDiscount: fetch the resolved candidate's
codes, derive buckets, compare with the expected bucket (empty string =
none supplied), and record alumni commencement and expiry
(= commencement plus 12 months). -/
def evaluateSingle (dir : Directory) (expected : String) (resolved : Candidate) : VOut :=
  if dir.codesStatus resolved.id ≠ 200 then
    { valid := false
      status := "error"
      reason := "codes " ++ toString (dir.codesStatus resolved.id)
      bb_record_id := some resolved.id }
  else
    let codes := dir.codesOf resolved.id
    let buckets := inferBucketsFromCodes codes dir.now
    let valid := if expected ≠ "" then buckets.contains expected else !buckets.isEmpty
    let alumnStart := alumniCommencementFromCodes codes
    { valid := valid
      status := if valid then "valid" else "invalid"
      expected_bucket := if expected = "" then none else some expected
      derived_buckets := buckets
      primary_bucket := choosePrimaryBucket buckets
      bb_record_id := some resolved.id
      candidate := some resolved
      codes := codes
      qualifies_other := !valid && !buckets.isEmpty && expected ≠ ""
      alumni_commencement := alumnStart
      alumni_expires_at := alumnStart.map addMonths12 }

/-- validateDiscount from blackbaudDiscountValidator.js (debug tracing
dropped; it only copies data already in the result). -/
def validateDiscount (dir : Directory) (search_id expected_bucket email name dob : String) :
    VOut :=
  let sanitized := sanitizeId search_id
  if dir.searchStatus ≠ 200 then
    { valid := false, status := "error"
      reason := "search " ++ toString dir.searchStatus }
  else if dir.searchValue.isEmpty then
    { valid := false, status := "not_found", reason := "no matches" }
  else
    let pool := dir.searchValue.filter (fun r => r.lookup_id ≠ sanitized)
    let candidate :=
      match resolveCandidate dir.searchValue sanitized email name with
      | some c => some c
      | none => if dob ≠ "" then resolveByDob dir pool dob else none
    match candidate with
    | some c => evaluateSingle dir expected_bucket c
    | none =>
      if pool.isEmpty then
        { valid := false, status := "not_found"
          reason := "no matches after excluding lookup collisions" }
      else
        let evaluated := (pool.filter (fun r => dir.codesStatus r.id = 200)).map
          (fun r => (r, inferBucketsFromCodes (dir.codesOf r.id) dir.now))
        if expected_bucket ≠ "" then
          match evaluated.filter (fun x => x.2.contains expected_bucket) with
          | [x] => evaluateSingle dir expected_bucket x.1
          | _ :: _ :: _ =>
            { valid := false, status := "ambiguous"
              reason := "multiple candidates match expected bucket"
              candidates := (evaluated.filter
                (fun x => x.2.contains expected_bucket)).map (fun x => x.1) }
          | [] =>
            { valid := false, status := "invalid"
              reason := "expected bucket not present on any candidate"
              candidatesWithBuckets := evaluated }
        else
          { valid := false, status := "invalid"
            reason := "no qualifying buckets"
            candidatesWithBuckets := evaluated }

/-! ### Orchestrator: records, job objects, registry -/

/-- asOne from part_003 on the string-valued field model (the numeric
and boolean branches of the source collapse onto their string forms). -/
def asOne (v : String) : Bool :=
  let s := lowerStr (trimStr v)
  s = "1" || s = "true" || s = "yes" || s = "y" || s = "checked"

/-- hasDiscountRequest from part_003: a discount is requested unless the
expected category is empty (or blank) or the none-of-the-above
sentinel. -/
def hasDiscountRequest (expectedRaw : String) : Bool :=
  if expectedRaw = "" then false
  else
    let s := lowerStr (trimStr expectedRaw)
    if s = "" then false else s ≠ "none of the above"

/-- Team-member record with the fields the orchestrator reads under its
default Airtable field names; getField null-handling is absorbed into
the empty-string default.  The alternate name/DOB field fallbacks of
the source collapse onto one field each. -/
structure MemberRec where
  id : String := ""
  name : String := ""
  firstName : String := ""
  lastName : String := ""
  membershipType : String := ""
  discountCategory : String := ""
  manualCheck : String := ""
  manualCategory : String := ""
  utsId : String := ""
  email : String := ""
  dob : String := ""
  representative : String := ""
  onboardingSubmitted : String := ""
  discountValidated : String := ""
deriving Repr, DecidableEq

/-- Startup (organization) record fields read by the gate check. -/
structure StartupRec where
  name : String := ""
  newOnboardingFormSubmitted : String := ""
  onboardingSubmitted : String := ""
  submissionConfirmation : String := ""
deriving Repr, DecidableEq

/-- Job progress counters. -/
structure Progress where
  validated : Nat := 0
  total : Nat := 0
deriving Repr, DecidableEq

/-- Per-member checklist entry seeded into job.members (primary_bucket,
never touched by onUpdate, is omitted). -/
structure ChecklistEntry where
  id : String
  name : String
  type : String
  expected_bucket : String
  status : String
  reason_code : String := ""
  reason_message : String := ""
deriving Repr, DecidableEq

/-- Entry of the results array of runMemberValidationsSequential. -/
inductive MemberOutcome
  | skipped (memberId reason : String)
  | validated (memberId : String) (result : VOut) (airtableOk : Bool)
deriving Repr, DecidableEq

/-- Terminal payload of a job. -/
inductive JobResult
  | pending
  | blocked (startupFormSubmitted submissionConfirmation anyRepSubmitted : Bool)
  | done (validations : List MemberOutcome)
  | error (message : String)
deriving Repr, DecidableEq

/-- In-memory job object of the JOBS registry. -/
structure Job where
  state : String
  startedAt : String
  progress : Progress := {}
  members : List ChecklistEntry := []
  result : JobResult := .pending
deriving Repr, DecidableEq

/-- mapReason from part_003 (public status vocabulary); the first
component is the reason code (none = null). -/
def mapReason (internal : String) : Option String × String :=
  let s := lowerStr internal
  if s = "valid" ∨ internal = "validated" then (some "validated", "Validated")
  else if s = "ambiguous" then (some "ambiguous", "Multiple possible matches")
  else if s = "unauthorized" then (some "unauthorized", "Authorization is required")
  else if s = "not_found" then (some "not_found", "No matching record found")
  else if s = "invalid" ∨ s = "mismatch" then (some "mismatch", "Does not match records")
  else if s = "error" then (some "error", "Validation error")
  else if s = "skipped" ∨ s = "no_request" then (some "no_request", "No discount requested")
  else if s = "manual" ∨ s = "manual_override" then (some "manual", "Manual check override")
  else (none, "")

/-- Statuses on which the orchestrator's onUpdate callback advances
progress.validated. -/
def incStatuses : List String := ["valid", "invalid", "ambiguous", "error", "skipped"]

/-- Value of an optional partial field, empty when absent. -/
def pstr (o : Option String) : String := o.getD ""

/-- Field overwrite one onUpdate call applies to the matched checklist
entry: present (non-empty) partial fields replace the stored ones. -/
def updateEntry (ps prc prm : Option String) (m : ChecklistEntry) : ChecklistEntry :=
  { m with
    status := if pstr ps ≠ "" then pstr ps else m.status
    reason_code := if pstr prc ≠ "" then pstr prc else m.reason_code
    reason_message := if pstr prm ≠ "" then pstr prm else m.reason_message }

/-- onUpdate callback installed by the trigger endpoint (part_003): find
the checklist entry, overwrite its present fields, and advance
progress.validated, capped at progress.total, when the pushed status is
one of the terminal public statuses it lists. -/
def applyOnUpdate (job : Job) (memberId : String)
    (ps prc prm : Option String) : Job :=
  if (job.members.find? (fun m => m.id = memberId)).isNone then job
  else
    let members := job.members.map (fun m =>
      if m.id = memberId then updateEntry ps prc prm m else m)
    let validated :=
      if incStatuses.contains (lowerStr (pstr ps)) then
        min (job.progress.validated + 1) job.progress.total
      else job.progress.validated
    { job with members := members
               progress := { job.progress with validated := validated } }

/-- fullName helper of the trigger endpoint (the three name field
variants collapse onto MemberRec.name). -/
def fullNameOf (r : MemberRec) : String :=
  let n := trimStr r.name
  if n ≠ "" then n
  else trimStr (trimStr r.firstName ++ " " ++ trimStr r.lastName)

/-- Expected bucket shown in the seeded checklist: the manual category
when the manual check and category are both set, else the declared
discount category. -/
def seedExpectedBucket (r : MemberRec) : String :=
  if trimStr r.manualCheck ≠ "" ∧ trimStr r.manualCategory ≠ "" then r.manualCategory
  else r.discountCategory

/-- Checklist entry seeded for one member before the gate check. -/
def seedMember (r : MemberRec) : ChecklistEntry :=
  { id := r.id
    name := if fullNameOf r ≠ "" then fullNameOf r else r.id
    type := r.membershipType
    expected_bucket := seedExpectedBucket r
    status := "queued" }

/-! ### Orchestrator: the member loop and the full run -/

/-- Observable external actions of a run; claims about "the Directory is
never called" are statements about validatorCall events in the emitted
trace. -/
inductive Ev
  | gateCheck (pass : Bool)
  | validatorCall (memberId : String)
  | persistWrite (memberId : String)
  | payloadBuild
  | renderCall
  | cacheWrite
  | attachWrite
  | stampDate
deriving Repr, DecidableEq

/-- Oracles of the member loop: the validator result for a member (the
at-most-one token-refresh retry of the source is folded into the final
result it settles on) and the outcome of the per-member Airtable write
(some message = the write threw; the source catches it and stores the
message). -/
structure StepEnv where
  validate : MemberRec → VOut
  persistFail : MemberRec → Option String

/-- Body of the runMemberValidationsSequential loop for one member, run
with updateAirtable = true and the trigger endpoint's onUpdate; returns
the updated job, the external events, and the results entry.  The
pacing delay and the dev-fake branch are dropped (pure timing / dev
only). -/
def processMember (env : StepEnv) (job : Job) (r : MemberRec) :
    Job × List Ev × MemberOutcome :=
  let job := applyOnUpdate job r.id (some "pending") none none
  let search_id := trimStr r.utsId
  let manual := r.manualCheck
  let expected :=
    if trimStr manual ≠ "" ∧ trimStr r.manualCategory ≠ "" then r.manualCategory
    else r.discountCategory
  if trimStr manual ≠ "" then
    (applyOnUpdate job r.id (some "skipped") (some "manual") (some "Manual check override"),
     [], .skipped r.id "manual_override")
  else if !hasDiscountRequest expected then
    (applyOnUpdate job r.id (some "skipped") (some "no_request") (some "No discount requested"),
     [], .skipped r.id "no_discount_requested")
  else if search_id = "" then
    (job, [], .skipped r.id "missing search_id")
  else
    let result := env.validate r
    let airtableOk := (env.persistFail r).isNone
    let pub := mapReason (if result.status ≠ "" then result.status else result.reason)
    let st :=
      if lowerStr result.status ≠ "" then lowerStr result.status
      else if result.valid then "valid" else "invalid"
    let job := applyOnUpdate job r.id (some st) pub.1 (some pub.2)
    (job, [Ev.validatorCall r.id, Ev.persistWrite r.id], .validated r.id result airtableOk)

/-- runMemberValidationsSequential over the member list (strictly in
fetch order). -/
def runMembers (env : StepEnv) : Job → List MemberRec → Job × List Ev × List MemberOutcome
  | job, [] => (job, [], [])
  | job, r :: rest =>
    let s := processMember env job r
    let t := runMembers env s.1 rest
    (t.1, s.2.1 ++ t.2.1, s.2.2 :: t.2.2)

/-- Oracles of a whole orchestrated run: the startup/member fetch, the
member loop oracles, and the generation tail (payload build, renderer,
PDF cache write, Airtable attachment append, created-date stamp), each
able to throw. -/
structure RunEnv where
  fetch : Except String (StartupRec × List MemberRec)
  step : StepEnv
  payloadBuild : Except String Unit
  renderPdf : Except String Unit
  pdfCacheWrite : Except String Unit
  attachUpdate : Except String Unit
  stampDate : Except String Unit

/-- Organization gate: the onboarding form was submitted (either field
variant). -/
def startupFormSubmittedOf (rec : StartupRec) : Bool :=
  asOne rec.newOnboardingFormSubmitted || asOne rec.onboardingSubmitted

/-- Organization gate: some representative-flagged member has itself
submitted the onboarding form. -/
def anyRepSubmittedOf (members : List MemberRec) : Bool :=
  members.any (fun m => asOne m.representative && asOne m.onboardingSubmitted)

/-- Detached body of POST /validate-and-generate/:token (part_003) for
one freshly created job: fetch, seed, gate check, sequential member
loop, payload + render + cache write, attachment append (whose failure
the source catches and only logs), date stamp (likewise caught), then
done; any uncaught exception lands in the outer catch which stores
state error with the message. -/
def runOrchestration (env : RunEnv) (startedAt : String) : Job × List Ev :=
  let job0 : Job := { state := "running", startedAt := startedAt }
  match env.fetch with
  | .error e => ({ job0 with state := "error", result := .error e }, [])
  | .ok (startupRec, members) =>
    let job1 := { job0 with
      progress := { validated := 0, total := members.length }
      members := members.map seedMember }
    let a := startupFormSubmittedOf startupRec
    let b := asOne startupRec.submissionConfirmation
    let c := anyRepSubmittedOf members
    if !(a && b && c) then
      ({ job1 with state := "blocked", result := .blocked a b c }, [Ev.gateCheck false])
    else
      let t := runMembers env.step job1 members
      let job2 := t.1
      let tr := Ev.gateCheck true :: t.2.1
      match env.payloadBuild with
      | .error e => ({ job2 with state := "error", result := .error e }, tr ++ [Ev.payloadBuild])
      | .ok _ =>
        match env.renderPdf with
        | .error e =>
          ({ job2 with state := "error", result := .error e },
           tr ++ [Ev.payloadBuild, Ev.renderCall])
        | .ok _ =>
          match env.pdfCacheWrite with
          | .error e =>
            ({ job2 with state := "error", result := .error e },
             tr ++ [Ev.payloadBuild, Ev.renderCall, Ev.cacheWrite])
          | .ok _ =>
            let trTail := tr ++ [Ev.payloadBuild, Ev.renderCall, Ev.cacheWrite, Ev.attachWrite]
            match env.attachUpdate with
            | .error _ =>
              ({ job2 with state := "done", result := .done t.2.2 }, trTail)
            | .ok _ =>
              ({ job2 with state := "done", result := .done t.2.2 }, trTail ++ [Ev.stampDate])

/-! ### Orchestrator: the JOBS registry and the trigger endpoint -/

/-- HTTP snapshot returned by the trigger endpoint. -/
structure TriggerResp where
  http : Nat
  state : String
  startedAt : String
  progress : Progress
deriving Repr, DecidableEq

/-- Map.set on the association-list model of the JOBS registry. -/
def setJob (jobs : List (String × Job)) (k : String) (j : Job) : List (String × Job) :=
  if (jobs.lookup k).isSome then jobs.map (fun p => if p.1 = k then (k, j) else p)
  else jobs ++ [(k, j)]

/-- Registry-facing behaviour of POST /validate-and-generate/:token: an
existing running job is returned unchanged (202, nothing started);
otherwise a fresh running job is stored and its initial snapshot
returned.  running is the only non-terminal state a registry entry ever
holds (jobs are created running and move to blocked, done or error). -/
def trigger (jobs : List (String × Job)) (orgId : String) (nowIso : String) :
    TriggerResp × List (String × Job) :=
  match jobs.lookup orgId with
  | some existing =>
    if existing.state = "running" then
      (⟨202, existing.state, existing.startedAt, existing.progress⟩, jobs)
    else
      let job : Job := { state := "running", startedAt := nowIso }
      (⟨202, job.state, job.startedAt, job.progress⟩, setJob jobs orgId job)
  | none =>
    let job : Job := { state := "running", startedAt := nowIso }
    (⟨202, job.state, job.startedAt, job.progress⟩, setJob jobs orgId job)

/-! ### Pricing: membership-type normalisation and fee assembly -/

/-- normaliseType of part_003 (buildPdfPayload and the pricing preview
endpoint define it identically): trim, lower-case, then substring
tests, defaulting to Casual Membership. -/
def normaliseType (raw : String) : String :=
  let s := lowerStr (trimStr raw)
  if containsSub s "full" then "Full Membership"
  else if containsSub s "casual" then "Casual Membership"
  else if containsSub s "day" then "Day Membership"
  else "Casual Membership"

/-- normaliseType of server.js; identical but for the missing trim
(irrelevant to the substring tests). -/
def normaliseTypeSrv (raw : String) : String :=
  let s := lowerStr raw
  if containsSub s "full" then "Full Membership"
  else if containsSub s "casual" then "Casual Membership"
  else if containsSub s "day" then "Day Membership"
  else "Casual Membership"

/-- Test for the regex of the sources that looks for a comparison sign,
optional whitespace, then 12; with backtracking this holds exactly when
some occurrence of the sign is followed, after its whitespace run, by
the digits 12. -/
def regexSign12 (sign : Char) : List Char → Bool
  | [] => false
  | c :: rest =>
    (decide (c = sign) && ['1', '2'].isPrefixOf (rest.dropWhile Char.isWhitespace)) ||
      regexSign12 sign rest

/-- discountColumnFor of part_003 (buildPdfPayload and the pricing
preview define it identically): keyword-map a category text onto one of
the six pricing columns. -/
def discountColumnFor (category : String) : Option String :=
  let s := lowerStr category
  if containsSub s "current" && containsSub s "student" then some "Current UTS Student"
  else if containsSub s "current" && containsSub s "staff" then some "Current Staff"
  else if (containsSub s "alumni" && (containsSub s "within" || containsSub s "< 12")) ||
      regexSign12 '<' s.data then some "UTS Alumni < 12m"
  else if (containsSub s "alumni" &&
      (containsSub s "more than" || containsSub s "over" || containsSub s "> 12")) ||
      regexSign12 '>' s.data then some "UTS Alumni > 12m"
  else if containsSub s "former" && containsSub s "staff" &&
      (containsSub s "within" || containsSub s "< 12") then some "Former Staff < 12m"
  else if containsSub s "former" && containsSub s "staff" &&
      (containsSub s "more than" || containsSub s "over" || containsSub s "> 12") then
    some "Former Staff > 12m"
  else none

/-- discountColumnFor of server.js: the part_003 mapping followed by the
compact-label fallbacks. -/
def discountColumnForSrv (category : String) : Option String :=
  match discountColumnFor category with
  | some c => some c
  | none =>
    let s := lowerStr category
    if containsSub s "alumni" && containsSub s "12" && containsSub s "<" then
      some "UTS Alumni < 12m"
    else if containsSub s "alumni" && containsSub s "12" && containsSub s ">" then
      some "UTS Alumni > 12m"
    else if containsSub s "former" && containsSub s "12" && containsSub s "<" then
      some "Former Staff < 12m"
    else if containsSub s "former" && containsSub s "12" && containsSub s ">" then
      some "Former Staff > 12m"
    else none

/-- effectiveDiscountCategory of part_003: the manual category when the
manual check and the manual category are both set, else the declared
category. -/
def effectiveDiscountCategory (r : MemberRec) : String :=
  if trimStr r.manualCheck ≠ "" ∧ trimStr r.manualCategory ≠ "" then r.manualCategory
  else r.discountCategory

/-- isDiscountValidated of part_003: a manual check reading valid with a
non-empty manual category, or the Discount Validated select reading
valid. -/
def isDiscountValidated (r : MemberRec) : Bool :=
  (lowerStr (trimStr r.manualCheck) = "valid" && trimStr r.manualCategory ≠ "") ||
    lowerStr (trimStr r.discountValidated) = "valid"

/-- Pricing-matrix row: base rate plus the rate per column; none models
a missing cell (JS null / absent key).  Rates are whole currency
amounts (Int); no claim under proof depends on sub-unit precision. -/
structure PricingRow where
  base : Int
  discounts : String → Option Int

/-- Pricing matrix keyed by normalised membership type; none models an
absent row, read back as base 0 with no discount cells. -/
def PricingMatrix : Type := String → Option PricingRow

/-- Default row used when the matrix has no entry for a type. -/
def emptyRow : PricingRow := { base := 0, discounts := fun _ => none }

/-- Monthly rate one submitted non-Day member contributes in part_003
buildPdfPayload: the discount-cell rate when validated (with the
explicit fallback from the two Current columns to the alumni-within
column), else the base rate. -/
def feeForMember_p3 (matrix : PricingMatrix) (r : MemberRec) : Int :=
  let type := normaliseType r.membershipType
  let row := (matrix type).getD emptyRow
  let col := discountColumnFor (effectiveDiscountCategory r)
  if isDiscountValidated r then
    match col with
    | some c0 =>
      match row.discounts c0 with
      | some rate => rate
      | none =>
        if c0 = "Current UTS Student" ∨ c0 = "Current Staff" then
          match row.discounts "UTS Alumni < 12m" with
          | some rate => rate
          | none => row.base
        else row.base
    | none => row.base
  else row.base

/-- Members counted by buildPdfPayload: those whose onboarding form is
submitted. -/
def submittedMembers (team : List MemberRec) : List MemberRec :=
  team.filter (fun r => asOne r.onboardingSubmitted)

/-- Fee sum of part_003 buildPdfPayload over the submitted members, Day
memberships excluded. -/
def pricingSum_p3 (matrix : PricingMatrix) (team : List MemberRec) : Int :=
  ((submittedMembers team).filter
    (fun r => normaliseType r.membershipType ≠ "Day Membership")).foldl
    (fun s r => s + feeForMember_p3 matrix r) 0

/-- Body of the pricing try block of part_003 buildPdfPayload.  On a
positive sum it formats the fee line (number formatting modelled by
toString).  On a zero sum the source evaluates
fullCount + casualCount, but no variables of those names are declared
anywhere in part_003 (the counting loop above it declares fullNoDisc,
fullDisc, casualNoDisc, casualWithin, casualOver, dayCount), so the
branch throws a ReferenceError. -/
def pricingTry_p3 (matrix : PricingMatrix) (team : List MemberRec) : Except String String :=
  let sum := pricingSum_p3 matrix team
  if 0 < sum then .ok ("AUD " ++ toString sum ++ " per month plus GST")
  else .error "fullCount is not defined"

/-- calculatedMonthlyFee after the pricing try/catch of part_003: the
catch only logs, leaving the initial empty string in place. -/
def calculatedMonthlyFee_p3 (matrix : PricingMatrix) (team : List MemberRec) : String :=
  match pricingTry_p3 matrix team with
  | .ok s => s
  | .error _ => ""

/-- calculated_monthly_fee as it lands in the part_003 payload:
calculatedMonthlyFee or the placeholder when it stayed empty. -/
def payloadFee_p3 (matrix : PricingMatrix) (team : List MemberRec) : String :=
  let l := calculatedMonthlyFee_p3 matrix team
  if l ≠ "" then l else "AUD 0.00 per month (placeholder)"

/-- validationIsValid of server.js. -/
def validationIsValid (r : MemberRec) : Bool :=
  lowerStr (trimStr r.discountValidated) = "valid"

/-- rateForMember of server.js: Day members contribute 0; otherwise the
discount cell mapped from the declared category when the validation
select reads valid and the cell exists, else the base rate of the
normalised type's row. -/
def rateForMember (matrix : PricingMatrix) (r : MemberRec) : Int :=
  let type := normaliseTypeSrv r.membershipType
  let row := (matrix type).getD emptyRow
  if type = "Day Membership" then 0
  else
    let col := discountColumnForSrv r.discountCategory
    if validationIsValid r then
      match col with
      | some c0 =>
        match row.discounts c0 with
        | some d => d
        | none => row.base
      | none => row.base
    else row.base

/-- Zero-sum guard of server.js buildPayload: some team member whose
normalised type is Full or Casual Membership. -/
def hasFullOrCasualSrv (team : List MemberRec) : Bool :=
  team.any (fun r =>
    let t := normaliseTypeSrv r.membershipType
    t = "Full Membership" || t = "Casual Membership")

/-- calculated_monthly_fee of server.js buildPayload: the formatted sum
when positive; on a zero sum the waived line when a Full or Casual
member exists, else the no-monthly-fee line. -/
def calculated_monthly_fee_srv (matrix : PricingMatrix) (team : List MemberRec) : String :=
  let sum := team.foldl (fun s r => s + rateForMember matrix r) 0
  if 0 < sum then "AUD " ++ toString sum ++ " per month plus GST"
  else if hasFullOrCasualSrv team then "AUD 0.00 per month (waived)"
  else "No monthly fee (Day Memberships charged per-day)"

/-! ### Helper predicates and lemmas shared by the claim theorems -/

/-- Recogniser for gate-check events. -/
def isGateCheck : Ev → Bool
  | .gateCheck _ => true
  | _ => false

/-- Recogniser for validator (Directory) call events. -/
def isValidatorCall : Ev → Bool
  | .validatorCall _ => true
  | _ => false

/-- Trace of one member step: empty when the member is skipped, else a
validator call followed by the persistence write. -/
theorem processMember_trace (env : StepEnv) (job : Job) (r : MemberRec) :
    (processMember env job r).2.1 = [] ∨
    (processMember env job r).2.1 = [Ev.validatorCall r.id, Ev.persistWrite r.id] := by
  simp only [processMember]
  split_ifs <;> simp

/-- The member loop emits no gate-check events. -/
theorem runMembers_no_gateCheck (env : StepEnv) :
    ∀ (members : List MemberRec) (job : Job),
      ((runMembers env job members).2.1).countP isGateCheck = 0 := by
  intro members
  induction members with
  | nil => intro job; simp [runMembers]
  | cons r rest ih =>
    intro job
    simp only [runMembers, List.countP_append]
    rcases processMember_trace env job r with h | h <;>
      simp [h, ih, List.countP_cons, isGateCheck]

/-! ### Claim C1: trigger idempotence while running -/

/-- C1: invoking trigger while the organization's registry entry is in
the non-terminal running state starts nothing new: the response carries
the existing job's state and startedAt unchanged and the registry is
left exactly as it was (same single entry for the organization, size
unchanged); a second trigger while running is a no-op returning the
existing snapshot. -/
theorem trigger_idempotent_while_running
    (jobs : List (String × Job)) (orgId nowIso : String) (j : Job)
    (hl : jobs.lookup orgId = some j) (hr : j.state = "running") :
    (trigger jobs orgId nowIso).1.state = j.state ∧
    (trigger jobs orgId nowIso).1.startedAt = j.startedAt ∧
    (trigger jobs orgId nowIso).1.progress = j.progress ∧
    (trigger jobs orgId nowIso).2 = jobs ∧
    (trigger jobs orgId nowIso).2.length = jobs.length := by
  simp [trigger, hl, hr]

/-- Concrete running job for the C1 witness. -/
def jobC1 : Job :=
  { state := "running", startedAt := "2026-02-03T04:05:06.000Z", progress := ⟨1, 3⟩ }

/-- Witness for C1 at a one-entry registry holding a running job. -/
theorem trigger_idempotent_while_running_witness :
    ([("recOrg1", jobC1)].lookup "recOrg1" = some jobC1) ∧
    ((trigger [("recOrg1", jobC1)] "recOrg1" "2026-09-09T00:00:00.000Z").1.state = jobC1.state ∧
     (trigger [("recOrg1", jobC1)] "recOrg1" "2026-09-09T00:00:00.000Z").1.startedAt =
       jobC1.startedAt ∧
     (trigger [("recOrg1", jobC1)] "recOrg1" "2026-09-09T00:00:00.000Z").1.progress =
       jobC1.progress ∧
     (trigger [("recOrg1", jobC1)] "recOrg1" "2026-09-09T00:00:00.000Z").2 =
       [("recOrg1", jobC1)] ∧
     (trigger [("recOrg1", jobC1)] "recOrg1" "2026-09-09T00:00:00.000Z").2.length =
       [("recOrg1", jobC1)].length) :=
  ⟨by decide,
   trigger_idempotent_while_running [("recOrg1", jobC1)] "recOrg1"
     "2026-09-09T00:00:00.000Z" jobC1 (by decide) (by decide)⟩

/-! ### Claim C2: gates checked once, blocked without Directory calls -/

/-- C2: on a successful fetch, the run evaluates the organization-level
gates exactly once and before any per-member work (the gate-check event
heads the trace and never recurs); whenever the gates are not all
satisfied the job ends blocked and the trace holds no Directory
(validator) call at all. -/
theorem gates_checked_once_blocked_without_directory
    (env : RunEnv) (startedAt : String) (rec : StartupRec) (members : List MemberRec)
    (hf : env.fetch = .ok (rec, members)) :
    ((runOrchestration env startedAt).2.head? =
      some (Ev.gateCheck (startupFormSubmittedOf rec && asOne rec.submissionConfirmation &&
        anyRepSubmittedOf members)) ∧
     (runOrchestration env startedAt).2.countP isGateCheck = 1) ∧
    ((startupFormSubmittedOf rec && asOne rec.submissionConfirmation &&
        anyRepSubmittedOf members) = false →
      (runOrchestration env startedAt).1.state = "blocked" ∧
      (runOrchestration env startedAt).1.result =
        JobResult.blocked (startupFormSubmittedOf rec) (asOne rec.submissionConfirmation)
          (anyRepSubmittedOf members) ∧
      (runOrchestration env startedAt).2.countP isValidatorCall = 0) := by
  simp only [runOrchestration, hf]
  cases hg : (startupFormSubmittedOf rec && asOne rec.submissionConfirmation &&
      anyRepSubmittedOf members) with
  | false =>
    simp [List.countP_cons, isGateCheck, isValidatorCall]
  | true =>
    cases hp : env.payloadBuild <;> cases hrp : env.renderPdf <;>
      cases hcw : env.pdfCacheWrite <;> cases hat : env.attachUpdate <;>
      simp [List.countP_cons, List.countP_append, runMembers_no_gateCheck,
        isGateCheck, isValidatorCall]

/-- Startup record failing the submission-confirmation gate, for the C2
witness. -/
def startupC2 : StartupRec :=
  { newOnboardingFormSubmitted := "1", submissionConfirmation := "" }

/-- Member list for the C2 witness: a representative who has submitted,
with a discount requested. -/
def membersC2 : List MemberRec :=
  [{ id := "recM1", name := "Jane Roe", membershipType := "Full Membership"
     discountCategory := "Current UTS Student", utsId := "12345678"
     representative := "1", onboardingSubmitted := "yes" }]

/-- Run environment for the C2 witness. -/
def envC2 : RunEnv :=
  { fetch := .ok (startupC2, membersC2)
    step := { validate := fun _ => { status := "valid", valid := true }
              persistFail := fun _ => none }
    payloadBuild := .ok ()
    renderPdf := .ok ()
    pdfCacheWrite := .ok ()
    attachUpdate := .ok ()
    stampDate := .ok () }

/-- Witness for C2: with the confirmation gate unmet the run blocks with
no Directory call and a single leading gate check. -/
theorem gates_checked_once_blocked_without_directory_witness :
    (((runOrchestration envC2 "T0").2.head? =
       some (Ev.gateCheck (startupFormSubmittedOf startupC2 &&
         asOne startupC2.submissionConfirmation && anyRepSubmittedOf membersC2)) ∧
      (runOrchestration envC2 "T0").2.countP isGateCheck = 1) ∧
     ((startupFormSubmittedOf startupC2 && asOne startupC2.submissionConfirmation &&
         anyRepSubmittedOf membersC2) = false →
       (runOrchestration envC2 "T0").1.state = "blocked" ∧
       (runOrchestration envC2 "T0").1.result =
         JobResult.blocked (startupFormSubmittedOf startupC2)
           (asOne startupC2.submissionConfirmation) (anyRepSubmittedOf membersC2) ∧
       (runOrchestration envC2 "T0").2.countP isValidatorCall = 0)) ∧
    (startupFormSubmittedOf startupC2 && asOne startupC2.submissionConfirmation &&
      anyRepSubmittedOf membersC2) = false :=
  ⟨gates_checked_once_blocked_without_directory envC2 "T0" startupC2 membersC2 rfl, by decide⟩

/-! ### Claim C3: exceptions set error; attachment-write failure is swallowed -/

/-- Trace of a processed (non-skipped) member: the validator call then
the persistence write. -/
theorem processMember_nonskip_trace (env : StepEnv) (job : Job) (r : MemberRec)
    (h1 : trimStr r.manualCheck = "") (h2 : hasDiscountRequest r.discountCategory = true)
    (h3 : trimStr r.utsId ≠ "") :
    (processMember env job r).2.1 = [Ev.validatorCall r.id, Ev.persistWrite r.id] := by
  simp [processMember, h1, h2, h3]

/-- Every non-skipped member's persistence write appears in the member
loop trace. -/
theorem runMembers_persist_mem (env : StepEnv) :
    ∀ (members : List MemberRec) (job : Job) (r : MemberRec), r ∈ members →
      trimStr r.manualCheck = "" → hasDiscountRequest r.discountCategory = true →
      trimStr r.utsId ≠ "" →
      Ev.persistWrite r.id ∈ (runMembers env job members).2.1 := by
  intro members
  induction members with
  | nil => intro job r hr; simp at hr
  | cons m rest ih =>
    intro job r hr h1 h2 h3
    simp only [runMembers, List.mem_append]
    rcases List.mem_cons.mp hr with heq | hr2
    · subst heq
      left
      rw [processMember_nonskip_trace env job r h1 h2 h3]
      simp
    · right
      exact ih _ r hr2 h1 h2 h3

/-- Whatever the generation tail does, the trace of a gated run keeps
every non-skipped member's persistence write: per-member outcomes
already written are never rolled back. -/
theorem runOrch_persist_kept (env : RunEnv) (startedAt : String)
    (rec : StartupRec) (members : List MemberRec)
    (hf : env.fetch = .ok (rec, members))
    (hg : (startupFormSubmittedOf rec && asOne rec.submissionConfirmation &&
      anyRepSubmittedOf members) = true)
    (r : MemberRec) (hrm : r ∈ members)
    (h1 : trimStr r.manualCheck = "") (h2 : hasDiscountRequest r.discountCategory = true)
    (h3 : trimStr r.utsId ≠ "") :
    Ev.persistWrite r.id ∈ (runOrchestration env startedAt).2 := by
  have hw := runMembers_persist_mem env.step members
    { state := "running", startedAt := startedAt
      progress := { validated := 0, total := members.length }
      members := List.map seedMember members, result := JobResult.pending }
    r hrm h1 h2 h3
  simp only [runOrchestration, hf, hg]
  cases env.payloadBuild <;> cases env.renderPdf <;> cases env.pdfCacheWrite <;>
    cases env.attachUpdate <;> simp [List.mem_append, hw]

/-- C3 (amended): an unexpected exception while fetching, assembling the
payload, rendering, or writing the PDF cache sets the job to error and
records the message, and the per-member persistence writes already in
the trace are kept (nothing is rolled back); an exception in the
attachment append to the organization record is caught by the source
and only logged, so the job still reaches done. -/
theorem exceptions_set_error_attach_swallowed
    (env : RunEnv) (startedAt : String) (rec : StartupRec) (members : List MemberRec)
    (e : String)
    (hf : env.fetch = .ok (rec, members))
    (hg : (startupFormSubmittedOf rec && asOne rec.submissionConfirmation &&
      anyRepSubmittedOf members) = true) :
    (∀ env2 : RunEnv, env2.fetch = Except.error e →
      (runOrchestration env2 startedAt).1.state = "error" ∧
      (runOrchestration env2 startedAt).1.result = JobResult.error e) ∧
    ((env.payloadBuild = .error e ∨
      (env.payloadBuild = .ok () ∧ env.renderPdf = .error e) ∨
      (env.payloadBuild = .ok () ∧ env.renderPdf = .ok () ∧ env.pdfCacheWrite = .error e)) →
      (runOrchestration env startedAt).1.state = "error" ∧
      (runOrchestration env startedAt).1.result = JobResult.error e ∧
      ∀ r ∈ members, trimStr r.manualCheck = "" → hasDiscountRequest r.discountCategory = true →
        trimStr r.utsId ≠ "" → Ev.persistWrite r.id ∈ (runOrchestration env startedAt).2) ∧
    (env.payloadBuild = .ok () → env.renderPdf = .ok () → env.pdfCacheWrite = .ok () →
      (runOrchestration env startedAt).1.state = "done") := by
  refine ⟨fun env2 h2 => by simp [runOrchestration, h2], fun hcase => ?_, fun hp hr hc => ?_⟩
  · have herr : (runOrchestration env startedAt).1.state = "error" ∧
        (runOrchestration env startedAt).1.result = JobResult.error e := by
      rcases hcase with hp | ⟨hp, hr⟩ | ⟨hp, hr, hc⟩ <;>
        simp [runOrchestration, hf, hg, *]
    exact ⟨herr.1, herr.2, fun r hrm h1 h2 h3 =>
      runOrch_persist_kept env startedAt rec members hf hg r hrm h1 h2 h3⟩
  · simp only [runOrchestration, hf, hg, hp, hr, hc]
    cases env.attachUpdate <;> simp

/-- Startup record passing every gate, for the C3 scenario. -/
def startupC3 : StartupRec :=
  { newOnboardingFormSubmitted := "1", submissionConfirmation := "yes" }

/-- Member list for the C3 scenario (representative, submitted, discount
requested, lookup id present). -/
def membersC3 : List MemberRec :=
  [{ id := "recM3", name := "Sam Poe", membershipType := "Casual Membership"
     discountCategory := "Current UTS Staff", utsId := "87654321"
     representative := "yes", onboardingSubmitted := "1" }]

/-- Environment in which everything succeeds except the attachment
append to the organization record. -/
def envC3 : RunEnv :=
  { fetch := .ok (startupC3, membersC3)
    step := { validate := fun _ => { status := "valid", valid := true }
              persistFail := fun _ => none }
    payloadBuild := .ok ()
    renderPdf := .ok ()
    pdfCacheWrite := .ok ()
    attachUpdate := .error "attachment write failed"
    stampDate := .ok () }

/-- Counterexample to C3 as stated: the attachment persistence write
after rendering throws, yet the job finishes done, not error — the
source catches that exception and only logs it. -/
theorem attach_exception_not_error_counterexample :
    envC3.attachUpdate = Except.error "attachment write failed" ∧
    (runOrchestration envC3 "T0").1.state = "done" ∧
    ¬(runOrchestration envC3 "T0").1.state = "error" :=
  ⟨rfl, by decide, by decide⟩

/-- Witness for the amended C3 at the concrete attach-failure
environment: the run still reaches done. -/
theorem exceptions_set_error_attach_swallowed_witness :
    (runOrchestration envC3 "T0").1.state = "done" :=
  (exceptions_set_error_attach_swallowed envC3 "T0" startupC3 membersC3 "m"
    rfl (by decide)).2.2 rfl rfl rfl

/-! ### Claim C4: when a member is skipped without a Directory call -/

/-- Environment for the C4 concrete inputs. -/
def envC4 : StepEnv :=
  { validate := fun _ => { status := "valid", valid := true }
    persistFail := fun _ => none }

/-- Job for the C4 concrete inputs. -/
def jobC4 : Job := { state := "running", startedAt := "T0" }

/-- Member with a discount requested, no manual override, and a blank
lookup id. -/
def memNoId : MemberRec :=
  { id := "recX", discountCategory := "Current UTS Student", utsId := "   " }

/-- Member with a manual-override category set but the manual check
empty, discount requested, lookup id present. -/
def memCatOnly : MemberRec :=
  { id := "recY", manualCategory := "Current UTS Staff"
    discountCategory := "Current UTS Student", utsId := "11112222" }

/-- Counterexample to C4 as stated.  First: a member whose lookup id is
blank is skipped with no Directory call although neither a manual
override is present nor was the discount request absent — so skipped is
not characterised by those two causes alone.  Second: a member with a
manual-override category set (but the manual check empty) is sent to
the Resolver and the outcome is not skipped. -/
theorem skipped_characterisation_counterexample :
    ((processMember envC4 jobC4 memNoId).2.2 =
       MemberOutcome.skipped "recX" "missing search_id" ∧
     (processMember envC4 jobC4 memNoId).2.1 = [] ∧
     trimStr memNoId.manualCheck = "" ∧
     hasDiscountRequest memNoId.discountCategory = true) ∧
    (trimStr memCatOnly.manualCategory ≠ "" ∧
     (processMember envC4 jobC4 memCatOnly).2.1 =
       [Ev.validatorCall "recY", Ev.persistWrite "recY"] ∧
     (processMember envC4 jobC4 memCatOnly).2.2 =
       MemberOutcome.validated "recY" { status := "valid", valid := true } true) := by
  decide

/-- C4 (amended): a member is skipped — equivalently, processed with no
Directory call — exactly when the manual-override check is present, or
no discount was requested, or the lookup id is blank; and every member
with the manual-override check set (the category alone does not
trigger the bypass) is skipped with the manual reason and without
invoking the Resolver. -/
theorem skipped_iff_manual_norequest_or_missing_id
    (env : StepEnv) (job : Job) (r : MemberRec) :
    ((processMember env job r).2.1 = [] ↔
      (trimStr r.manualCheck ≠ "" ∨ hasDiscountRequest r.discountCategory = false ∨
       trimStr r.utsId = "")) ∧
    ((∃ rsn, (processMember env job r).2.2 = MemberOutcome.skipped r.id rsn) ↔
      (trimStr r.manualCheck ≠ "" ∨ hasDiscountRequest r.discountCategory = false ∨
       trimStr r.utsId = "")) ∧
    (trimStr r.manualCheck ≠ "" →
      (processMember env job r).2.2 = MemberOutcome.skipped r.id "manual_override" ∧
      (processMember env job r).2.1 = []) := by
  simp only [processMember]
  split_ifs <;> simp_all

/-- Member with the manual-override check set, for the C4 witness. -/
def memC4W : MemberRec :=
  { id := "recW", manualCheck := "1", manualCategory := "Current UTS Staff"
    discountCategory := "Current UTS Student", utsId := "123" }

/-- Witness for the amended C4: the manual-override member is skipped
with the manual reason and no Directory call. -/
theorem skipped_iff_manual_norequest_or_missing_id_witness :
    (processMember envC4 jobC4 memC4W).2.2 =
      MemberOutcome.skipped memC4W.id "manual_override" ∧
    (processMember envC4 jobC4 memC4W).2.1 = [] :=
  (skipped_iff_manual_norequest_or_missing_id envC4 jobC4 memC4W).2.2 (by decide)

/-! ### Claim C5: fallback resolution by expected bucket -/

/-- Pool of a resolve call: the search results minus lookup-id
collisions with the (sanitised) query id. -/
def poolOf (dir : Directory) (sanitized : String) : List Candidate :=
  dir.searchValue.filter (fun r => r.lookup_id ≠ sanitized)

/-- Every pool candidate paired with its derived buckets — what the
fallback path of validateDiscount evaluates when each codes fetch
succeeds. -/
def evaluatedOf (dir : Directory) (sanitized : String) : List (Candidate × List String) :=
  (poolOf dir sanitized).map (fun r => (r, inferBucketsFromCodes (dir.codesOf r.id) dir.now))

/-- Reduction of validateDiscount to its expected-bucket fallback match
when the search succeeded with a non-empty pool, prior disambiguation
(email, name, DOB) resolved nothing, an expected bucket was supplied,
and every pool codes fetch succeeds. -/
theorem validateDiscount_fallback_eq
    (dir : Directory) (search_id expected email name dob : String)
    (hst : dir.searchStatus = 200) (hv : dir.searchValue ≠ [])
    (he : expected ≠ "")
    (hr : resolveCandidate dir.searchValue (sanitizeId search_id) email name = none)
    (hdob : (if dob ≠ "" then resolveByDob dir (poolOf dir (sanitizeId search_id)) dob
             else none) = none)
    (hpool : poolOf dir (sanitizeId search_id) ≠ [])
    (h200 : ∀ r ∈ poolOf dir (sanitizeId search_id), dir.codesStatus r.id = 200) :
    validateDiscount dir search_id expected email name dob =
      match (evaluatedOf dir (sanitizeId search_id)).filter
          (fun y => y.2.contains expected) with
      | [x] => evaluateSingle dir expected x.1
      | [] =>
        { valid := false, status := "invalid"
          reason := "expected bucket not present on any candidate"
          candidatesWithBuckets := evaluatedOf dir (sanitizeId search_id) }
      | _ :: _ :: _ =>
        { valid := false, status := "ambiguous"
          reason := "multiple candidates match expected bucket"
          candidates := ((evaluatedOf dir (sanitizeId search_id)).filter
            (fun y => y.2.contains expected)).map (fun y => y.1) } := by
  have hie : dir.searchValue.isEmpty = false := by
    cases h : dir.searchValue with
    | nil => exact absurd h hv
    | cons a l => simp [List.isEmpty]
  simp only [poolOf] at hdob hpool h200
  have hpie : (dir.searchValue.filter
      (fun r => r.lookup_id ≠ sanitizeId search_id)).isEmpty = false := by
    cases h : dir.searchValue.filter (fun r => r.lookup_id ≠ sanitizeId search_id) with
    | nil => exact absurd h hpool
    | cons a l => simp [List.isEmpty]
  have hfe : (dir.searchValue.filter
        (fun r => r.lookup_id ≠ sanitizeId search_id)).filter
        (fun r => dir.codesStatus r.id = 200) =
      dir.searchValue.filter (fun r => r.lookup_id ≠ sanitizeId search_id) :=
    List.filter_eq_self.mpr (by intro a ha; simpa using h200 a ha)
  simp only [validateDiscount, hst, hie, hr, hdob, hpie, hfe, he, evaluatedOf, poolOf]
  rw [if_neg (by simp), if_neg (by simp), if_neg (by simp), if_pos he]
  split <;> (rename_i heq; rw [heq])

/-- C5: with prior disambiguation unresolved and an expected bucket
supplied (search ok, pool non-empty, codes fetches succeeding), the
resolver returns: the single-candidate evaluation, with status valid,
when exactly one pool candidate's buckets contain the expected bucket;
status ambiguous listing exactly the matching candidates when several
do; status invalid reporting every pool candidate with its derived
buckets when none does. -/
theorem expected_bucket_fallback_resolution
    (dir : Directory) (search_id expected email name dob : String)
    (hst : dir.searchStatus = 200) (hv : dir.searchValue ≠ [])
    (he : expected ≠ "")
    (hr : resolveCandidate dir.searchValue (sanitizeId search_id) email name = none)
    (hdob : (if dob ≠ "" then resolveByDob dir (poolOf dir (sanitizeId search_id)) dob
             else none) = none)
    (hpool : poolOf dir (sanitizeId search_id) ≠ [])
    (h200 : ∀ r ∈ poolOf dir (sanitizeId search_id), dir.codesStatus r.id = 200) :
    (∀ x, (evaluatedOf dir (sanitizeId search_id)).filter
        (fun y => y.2.contains expected) = [x] →
      validateDiscount dir search_id expected email name dob =
        evaluateSingle dir expected x.1 ∧
      (validateDiscount dir search_id expected email name dob).status = "valid") ∧
    (2 ≤ ((evaluatedOf dir (sanitizeId search_id)).filter
        (fun y => y.2.contains expected)).length →
      (validateDiscount dir search_id expected email name dob).status = "ambiguous" ∧
      (validateDiscount dir search_id expected email name dob).candidates =
        ((evaluatedOf dir (sanitizeId search_id)).filter
          (fun y => y.2.contains expected)).map (fun y => y.1)) ∧
    ((evaluatedOf dir (sanitizeId search_id)).filter
        (fun y => y.2.contains expected) = [] →
      (validateDiscount dir search_id expected email name dob).status = "invalid" ∧
      (validateDiscount dir search_id expected email name dob).candidatesWithBuckets =
        evaluatedOf dir (sanitizeId search_id)) := by
  have heq := validateDiscount_fallback_eq dir search_id expected email name dob
    hst hv he hr hdob hpool h200
  refine ⟨fun x hx => ?_, fun hlen => ?_, fun hnil => ?_⟩
  · rw [hx] at heq
    refine ⟨heq, ?_⟩
    have hxmem : x ∈ (evaluatedOf dir (sanitizeId search_id)).filter
        (fun y => y.2.contains expected) := by
      rw [hx]; exact List.mem_singleton.mpr rfl
    have hxev : x ∈ evaluatedOf dir (sanitizeId search_id) := List.mem_of_mem_filter hxmem
    have hxp : x.2.contains expected = true := by
      simpa using List.of_mem_filter hxmem
    obtain ⟨r, hrmem, hreq⟩ := List.mem_map.mp hxev
    have hx2 : x.2 = inferBucketsFromCodes (dir.codesOf x.1.id) dir.now := by
      rw [← hreq]
    have hc200 : dir.codesStatus x.1.id = 200 := by
      rw [← hreq]; exact h200 r hrmem
    rw [heq]
    simp only [evaluateSingle, hc200]
    rw [if_neg (by simp)]
    simp only [he, ← hx2]
    simp only [ne_eq, he, not_false_iff, if_true]
    simpa using hxp
  · rcases hfil : (evaluatedOf dir (sanitizeId search_id)).filter
        (fun y => y.2.contains expected) with _ | ⟨a, _ | ⟨b, t⟩⟩
    · rw [hfil] at hlen; simp at hlen
    · rw [hfil] at hlen; simp at hlen
    · rw [hfil] at heq
      refine ⟨by simp [heq], ?_⟩
      rw [heq, hfil]
  · rw [hnil] at heq
    exact ⟨by simp [heq], by simp [heq]⟩

/-- Three pool candidates for the C5 witness: two derive the expected
student bucket, one only a staff bucket. -/
def cand5A : Candidate := ⟨"A1", "Ann One", "", "L1"⟩

/-- Second C5 candidate (staff only). -/
def cand5B : Candidate := ⟨"B2", "Ben Two", "", "L2"⟩

/-- Third C5 candidate (student). -/
def cand5C : Candidate := ⟨"C3", "Cam Three", "", "L3"⟩

/-- Directory for the C5 witness. -/
def dir5 : Directory :=
  { now := 0
    searchStatus := 200
    searchValue := [cand5A, cand5B, cand5C]
    codesStatus := fun _ => 200
    codesOf := fun i =>
      if i = "B2" then [⟨"Staff", false, none, none, none⟩]
      else [⟨"Student", false, none, none, none⟩]
    detailStatus := fun _ => 200
    birthOf := fun _ => none }

/-- Witness for C5 on the spec's ambiguity scenario: of three pool
candidates exactly the two student candidates match the expected
bucket, so resolution returns ambiguous listing exactly those two. -/
theorem expected_bucket_fallback_resolution_witness :
    (validateDiscount dir5 "Q9" "Current UTS Student" "" "" "").status = "ambiguous" ∧
    (validateDiscount dir5 "Q9" "Current UTS Student" "" "" "").candidates =
      [cand5A, cand5C] := by
  have h := (expected_bucket_fallback_resolution dir5 "Q9" "Current UTS Student" "" "" ""
    (by decide) (by decide) (by decide) (by decide) (by decide) (by decide)
    (by decide)).2.1 (by decide)
  exact ⟨h.1, by rw [h.2]; decide⟩

/-! ### Claim C6: name scoring and top-scorer acceptance -/

/-- Deduplicated token set of a normalized name, exactly as scoreName
builds it for the Jaccard comparison. -/
@[reducible] def scoreTokens (norm : String) : List String :=
  dedupKeep (tokenize (· = ' ') [] norm.data)

/-- Same-last-name-with-first-name-prefix condition of scoreName, on
normalized names: both last tokens non-empty and equal, and one first
part a prefix of the other. -/
@[reducible] def lastPrefixCond (c e : String) : Prop :=
  (splitName c).2 ≠ "" ∧ (splitName e).2 ≠ "" ∧
    (splitName c).2 = (splitName e).2 ∧
    (startsWithB (splitName c).1 (splitName e).1 ∨
     startsWithB (splitName e).1 (splitName c).1)

/-- Token Jaccard similarity at least one half, exactly as scoreName
computes it: twice the intersection size at least the union size
(clamped below by 1, the source's max(1, |c| + |e| - inter)
denominator). -/
@[reducible] def jaccardGeHalf (c e : String) : Prop :=
  2 * ((scoreTokens c).filter (fun t => (scoreTokens e).contains t)).length ≥
    max 1 ((scoreTokens c).length + (scoreTokens e).length -
      ((scoreTokens c).filter (fun t => (scoreTokens e).contains t)).length)

/-- Candidate whose normalized last name uniquely matches the expected
last name while every score is zero. -/
def candC6A : Candidate := ⟨"A", "alexander smith", "", "L1"⟩

/-- Second candidate of the C6 pool. -/
def candC6B : Candidate := ⟨"B", "charlie jones", "", "L2"⟩

/-- Counterexample to C6 as stated: against the expected name the top
scorer (the first candidate; both score 0) is the unique candidate
whose normalized last name equals the expected last name, so the
claimed acceptance rule would accept it — but resolveCandidate returns
none (ambiguous), because the source additionally requires a positive
top score before any acceptance, the unique-last-name fallback
included. -/
theorem top_scorer_acceptance_counterexample :
    argmaxFirst ([candC6A, candC6B].map (fun r => (r, scoreName r.name "bob smith"))) =
      some (candC6A, 0) ∧
    (splitName (normalizeName "bob smith")).2 = "smith" ∧
    [candC6A, candC6B].filter
      (fun r => (splitName (normalizeName r.name)).2 = "smith") = [candC6A] ∧
    resolveCandidate [candC6A, candC6B] "X" "" "bob smith" = none := by decide

/-- C6 (amended): scoring is as claimed — 100 for an exact normalized
match, 85 for equal non-empty last names with one first name a prefix
of the other, 60 for token Jaccard at least one half, 0 otherwise — and
the top scorer is accepted when its score reaches 85 or beats the
runner-up by 15; failing that, if the top score is positive and exactly
one candidate (not necessarily the top scorer) has the expected last
name, that candidate is accepted; a zero top score accepts nothing. -/
theorem name_scoring_and_acceptance :
    (∀ cn en,
      (normalizeName cn ≠ "" → normalizeName cn = normalizeName en →
        scoreName cn en = 100) ∧
      (normalizeName cn = "" ∨ normalizeName en = "" → scoreName cn en = 0) ∧
      (normalizeName cn ≠ normalizeName en →
        (splitName (normalizeName cn)).2 ≠ "" →
        (splitName (normalizeName cn)).2 = (splitName (normalizeName en)).2 →
        (startsWithB (splitName (normalizeName cn)).1 (splitName (normalizeName en)).1 ∨
         startsWithB (splitName (normalizeName en)).1 (splitName (normalizeName cn)).1) →
        scoreName cn en = 85) ∧
      (normalizeName cn ≠ "" → normalizeName en ≠ "" →
        normalizeName cn ≠ normalizeName en →
        ¬lastPrefixCond (normalizeName cn) (normalizeName en) →
        jaccardGeHalf (normalizeName cn) (normalizeName en) →
        scoreName cn en = 60) ∧
      (normalizeName cn ≠ "" → normalizeName en ≠ "" →
        normalizeName cn ≠ normalizeName en →
        ¬lastPrefixCond (normalizeName cn) (normalizeName en) →
        ¬jaccardGeHalf (normalizeName cn) (normalizeName en) →
        scoreName cn en = 0)) ∧
    (∀ (results : List Candidate) (searchId email name : String) (top : Candidate × Nat),
      2 ≤ (results.filter (fun r => r.lookup_id ≠ trimStr searchId)).length →
      (if normalizeEmail email ≠ "" then
        (results.filter (fun r => r.lookup_id ≠ trimStr searchId)).find?
          (fun r => normalizeEmail r.email = normalizeEmail email)
       else none) = none →
      name ≠ "" →
      argmaxFirst ((results.filter (fun r => r.lookup_id ≠ trimStr searchId)).map
        (fun r => (r, scoreName r.name name))) = some top →
      ((0 < top.2 → (85 ≤ top.2 ∨
          maxScore (removeFirstPair ((results.filter
            (fun r => r.lookup_id ≠ trimStr searchId)).map
            (fun r => (r, scoreName r.name name))) top) + 15 ≤ top.2) →
        resolveCandidate results searchId email name = some top.1) ∧
       (top.2 = 0 → resolveCandidate results searchId email name = none) ∧
       (∀ u, 0 < top.2 →
        ¬(85 ≤ top.2 ∨
          maxScore (removeFirstPair ((results.filter
            (fun r => r.lookup_id ≠ trimStr searchId)).map
            (fun r => (r, scoreName r.name name))) top) + 15 ≤ top.2) →
        (splitName (normalizeName name)).2 ≠ "" →
        ((results.filter (fun r => r.lookup_id ≠ trimStr searchId)).map
          (fun r => (r, scoreName r.name name))).filter
          (fun x => (splitName (normalizeName x.1.name)).2 =
            (splitName (normalizeName name)).2) = [u] →
        resolveCandidate results searchId email name = some u.1))) := by
  constructor
  · intro cn en
    refine ⟨fun h1 h2 => ?_, fun h0 => ?_, fun hne hl1 hl2 hpre => ?_,
      fun h1 h2 hne hn85 hjac => ?_, fun h1 h2 hne hn85 hnjac => ?_⟩
    · simp only [scoreName]
      rw [if_neg (by rintro (hc | hc); exacts [h1 hc, h1 (h2.trans hc)]), if_pos h2]
    · simp only [scoreName]
      rw [if_pos h0]
    · simp only [scoreName]
      rw [if_neg ?_, if_neg hne, if_pos ⟨hl1, fun h => hl1 (hl2.trans h), hl2, hpre⟩]
      rintro (hc | hc)
      · exact hl1 (by rw [hc]; rfl)
      · exact hl1 (by rw [hl2, hc]; rfl)
    · simp only [lastPrefixCond] at hn85
      simp only [jaccardGeHalf, scoreTokens] at hjac
      simp only [scoreName]
      rw [if_neg (by rintro (hc | hc); exacts [h1 hc, h2 hc]), if_neg hne, if_neg hn85,
        if_pos hjac]
    · simp only [lastPrefixCond] at hn85
      simp only [jaccardGeHalf, scoreTokens] at hnjac
      simp only [scoreName]
      rw [if_neg (by rintro (hc | hc); exacts [h1 hc, h2 hc]), if_neg hne, if_neg hn85,
        if_neg hnjac]
  · intro results searchId email name top hp2 hemail hname htop
    have hple : ¬((results.filter (fun r => r.lookup_id ≠ trimStr searchId)).length ≤ 1) := by
      omega
    refine ⟨fun hpos hacc => ?_, fun hz => ?_, fun u hpos hnacc hlast hluniq => ?_⟩
    · simp only [resolveCandidate]
      rw [if_neg hple, hemail, if_pos hname, htop]
      dsimp only
      rw [if_pos hpos, if_pos hacc]
    · simp only [resolveCandidate]
      rw [if_neg hple, hemail, if_pos hname, htop]
      dsimp only
      rw [if_neg (by omega)]
    · simp only [resolveCandidate]
      rw [if_neg hple, hemail, if_pos hname, htop]
      dsimp only
      rw [if_pos hpos, if_neg hnacc, if_pos hlast, hluniq]

/-- Candidate for the C6 witness scoring 60 and placed first. -/
def candC6C : Candidate := ⟨"C", "anna maria bianchi", "", "L3"⟩

/-- Candidate for the C6 witness: also 60 but the unique last-name
match. -/
def candC6D : Candidate := ⟨"D", "maria rossi", "", "L4"⟩

/-- Witness for the amended C6: a 60-60 tie with no margin falls back to
the unique last-name match, which is not the top scorer; the two 60
scores come from the Jaccard rule and an unrelated pair scores 0. -/
theorem name_scoring_and_acceptance_witness :
    resolveCandidate [candC6C, candC6D] "Z" "" "anna maria rossi" = some candC6D ∧
    scoreName candC6C.name "anna maria rossi" = 60 ∧
    scoreName candC6D.name "anna maria rossi" = 60 ∧
    scoreName "charlie jones" "bob smith" = 0 :=
  ⟨(name_scoring_and_acceptance.2 [candC6C, candC6D] "Z" "" "anna maria rossi"
      (candC6C, 60) (by decide) (by decide) (by decide) (by decide)).2.2
      (candC6D, 60) (by decide) (by decide) (by decide) (by decide),
   (name_scoring_and_acceptance.1 "anna maria bianchi" "anna maria rossi").2.2.2.1
     (by decide) (by decide) (by decide) (by decide) (by decide),
   (name_scoring_and_acceptance.1 "maria rossi" "anna maria rossi").2.2.2.1
     (by decide) (by decide) (by decide) (by decide) (by decide),
   (name_scoring_and_acceptance.1 "charlie jones" "bob smith").2.2.2.2
     (by decide) (by decide) (by decide) (by decide) (by decide)⟩

/-! ### Claim C7: zero-sum fee label -/

/-- Submitted Full-type member for the C7 failing input. -/
def memC7 : MemberRec :=
  { id := "f1", membershipType := "Full Membership", onboardingSubmitted := "1" }

/-- Empty pricing matrix (no pricing table configured), giving a zero
fee sum. -/
def matrixC7 : PricingMatrix := fun _ => none

/-- C7: at the failing input — one submitted Full member and a zero fee
sum — the zero-sum branch of part_003 buildPdfPayload reads the
undeclared fullCount/casualCount and throws, the catch leaves the fee
text empty, and the payload falls back to the placeholder; the parallel
server.js buildPayload, which the claim describes, produces the waived
label on the same input. -/
theorem zero_sum_fee_label_reference_error :
    pricingSum_p3 matrixC7 [memC7] = 0 ∧
    normaliseType memC7.membershipType = "Full Membership" ∧
    pricingTry_p3 matrixC7 [memC7] = Except.error "fullCount is not defined" ∧
    calculatedMonthlyFee_p3 matrixC7 [memC7] = "" ∧
    payloadFee_p3 matrixC7 [memC7] = "AUD 0.00 per month (placeholder)" ∧
    calculated_monthly_fee_srv matrixC7 [memC7] = "AUD 0.00 per month (waived)" :=
  ⟨by decide, by decide, rfl, by decide, by decide, by decide⟩

/-! ### Claim C9: alumni commencement and +12-month expiry -/

/-- C9: when the resolved candidate's codes yield an alumni commencement
date whose day exists in the same month one year later (always true for
the claim's January example), the single-candidate evaluation records
that commencement and an expiry of exactly commencement plus 12
calendar months. -/
theorem alumni_expiry_plus_12_months
    (dir : Directory) (expected : String) (c : Candidate) (s : Ymd)
    (h200 : dir.codesStatus c.id = 200)
    (hcom : alumniCommencementFromCodes (dir.codesOf c.id) = some s)
    (hday : s.d ≤ daysInMonth (s.y + 1) s.m) :
    (evaluateSingle dir expected c).alumni_commencement = some s ∧
    (evaluateSingle dir expected c).alumni_expires_at = some ⟨s.y + 1, s.m, s.d⟩ := by
  simp only [evaluateSingle]
  rw [if_neg (by simp [h200])]
  refine ⟨by simp [hcom], ?_⟩
  simp [hcom, addMonths12, hday]

/-- Resolved candidate for the C9 witness. -/
def candC9 : Candidate := ⟨"R9", "Alex Grad", "", "L9"⟩

/-- Directory whose codes for that candidate hold one alumni code with
start 2024-01-15; now is mid 2024. -/
def dirC9 : Directory :=
  { now := ymdToMs ⟨2024, 6, 1⟩
    searchStatus := 200
    searchValue := [candC9]
    codesStatus := fun _ => 200
    codesOf := fun _ => [⟨"Alumni", false, some ⟨2024, 1, 15⟩, none, none⟩]
    detailStatus := fun _ => 200
    birthOf := fun _ => none }

/-- Witness for C9: start 2024-01-15 gives expiry 2025-01-15. -/
theorem alumni_expiry_plus_12_months_witness :
    (evaluateSingle dirC9 "" candC9).alumni_commencement = some ⟨2024, 1, 15⟩ ∧
    (evaluateSingle dirC9 "" candC9).alumni_expires_at = some ⟨2025, 1, 15⟩ :=
  alumni_expiry_plus_12_months dirC9 "" candC9 ⟨2024, 1, 15⟩
    (by decide) (by decide) (by decide)

/-! ### Claim C10: unrecognised membership types normalise to Casual -/

/-- Boolean infix test agrees with the infix relation. -/
theorem isInfixOfB_iff (p l : List Char) : isInfixOfB p l = true ↔ p <:+: l := by
  induction l with
  | nil => simp [isInfixOfB, List.isEmpty_iff]
  | cons a t ih => simp [isInfixOfB, List.infix_cons_iff, ih]

/-- Trimming keeps an infix of the original characters. -/
theorem trimStr_data_within (s : String) : (trimStr s).data <:+: s.data := by
  have h1 : s.data.dropWhile Char.isWhitespace <:+ s.data :=
    List.dropWhile_suffix Char.isWhitespace
  have h2 : (trimStr s).data <+: s.data.dropWhile Char.isWhitespace := by
    rw [← List.reverse_suffix]
    simpa [trimStr] using
      List.dropWhile_suffix (l := (s.data.dropWhile Char.isWhitespace).reverse)
        Char.isWhitespace
  exact h2.isInfix.trans h1.isInfix

/-- A substring found in the lower-cased trimmed string is found in the
lower-cased original. -/
theorem containsSub_of_trim (s pat : String)
    (h : containsSub (lowerStr (trimStr s)) pat = true) :
    containsSub (lowerStr s) pat = true := by
  rw [containsSub, isInfixOfB_iff] at h ⊢
  have h2 : (lowerStr (trimStr s)).data <:+: (lowerStr s).data := by
    simpa [lowerStr] using (trimStr_data_within s).map lowerChar
  exact h.trans h2

/-- C10: a membership type containing (case-insensitively) none of
full, casual, day — the empty string included — normalises to Casual
Membership under both normaliseType implementations; consequently such
a member without a validated discount contributes the Casual base rate
to the fee sum and counts as a Full/Casual member (never Day) in the
zero-sum fee-label decision. -/
theorem unrecognised_type_casual
    (s : String)
    (hf : containsSub (lowerStr s) "full" = false)
    (hc : containsSub (lowerStr s) "casual" = false)
    (hd : containsSub (lowerStr s) "day" = false) :
    normaliseType s = "Casual Membership" ∧
    normaliseTypeSrv s = "Casual Membership" ∧
    (∀ (matrix : PricingMatrix) (r : MemberRec), r.membershipType = s →
      validationIsValid r = false →
      rateForMember matrix r = ((matrix "Casual Membership").getD emptyRow).base) ∧
    (∀ (team : List MemberRec) (r : MemberRec), r ∈ team → r.membershipType = s →
      hasFullOrCasualSrv team = true) := by
  have trimmed : ∀ pat, containsSub (lowerStr s) pat = false →
      containsSub (lowerStr (trimStr s)) pat = false := by
    intro pat hp
    by_contra hx
    rw [Bool.not_eq_false] at hx
    rw [containsSub_of_trim s pat hx] at hp
    exact absurd hp (by simp)
  have hsrv : normaliseTypeSrv s = "Casual Membership" := by
    simp [normaliseTypeSrv, hf, hc, hd]
  refine ⟨by simp [normaliseType, trimmed _ hf, trimmed _ hc, trimmed _ hd], hsrv,
    fun matrix r hrt hval => ?_, fun team r hmem hrt => ?_⟩
  · simp only [rateForMember, hrt, hsrv]
    rw [if_neg (by simp), if_neg (by simp [hval])]
  · simp only [hasFullOrCasualSrv, List.any_eq_true]
    exact ⟨r, hmem, by simp [hrt, hsrv]⟩

/-- Member with a blank membership type, for the C10 witness. -/
def memC10 : MemberRec := { id := "u1", membershipType := "" }

/-- Casual row of the C10 witness matrix. -/
def rowC10 : PricingRow := { base := 150, discounts := fun _ => none }

/-- Matrix holding only the Casual row, for the C10 witness. -/
def matrixC10 : PricingMatrix :=
  fun t => if t = "Casual Membership" then some rowC10 else none

/-- Witness for C10 at the empty type string. -/
theorem unrecognised_type_casual_witness :
    normaliseType "" = "Casual Membership" ∧
    normaliseTypeSrv "" = "Casual Membership" ∧
    rateForMember matrixC10 memC10 = 150 ∧
    hasFullOrCasualSrv [memC10] = true := by
  have h := unrecognised_type_casual "" (by decide) (by decide) (by decide)
  refine ⟨h.1, h.2.1, ?_, h.2.2.2 [memC10] memC10 (by decide) rfl⟩
  rw [h.2.2.1 matrixC10 memC10 rfl (by decide)]
  decide

/-! ### Claim C8: checklist updates and progress accounting -/

/-- Progress total is never changed by an onUpdate call. -/
theorem applyOnUpdate_total (job : Job) (mid : String) (ps prc prm : Option String) :
    (applyOnUpdate job mid ps prc prm).progress.total = job.progress.total := by
  cases hfe : job.members.find? (fun m => m.id = mid) with
  | none => simp [applyOnUpdate, hfe]
  | some e => simp [applyOnUpdate, hfe]

/-- Progress validated after one onUpdate call: bumped (capped at the
total) exactly when the entry exists and the pushed status is in the
increment list. -/
theorem applyOnUpdate_validated (job : Job) (mid : String) (ps prc prm : Option String) :
    (applyOnUpdate job mid ps prc prm).progress.validated =
      if ((job.members.find? (fun m => m.id = mid)).isSome &&
          incStatuses.contains (lowerStr (pstr ps))) = true then
        min (job.progress.validated + 1) job.progress.total
      else job.progress.validated := by
  cases hfe : job.members.find? (fun m => m.id = mid) with
  | none => simp [applyOnUpdate, hfe]
  | some e =>
    by_cases hI : incStatuses.contains (lowerStr (pstr ps)) <;>
      simp [applyOnUpdate, hfe, hI]

/-- Looking the updated member up after an onUpdate call returns the
previous entry with the overwrite applied. -/
theorem applyOnUpdate_find_self (job : Job) (mid : String) (ps prc prm : Option String) :
    (applyOnUpdate job mid ps prc prm).members.find? (fun m => m.id = mid) =
      (job.members.find? (fun m => m.id = mid)).map (updateEntry ps prc prm) := by
  cases hfe : job.members.find? (fun m => m.id = mid) with
  | none => simp [applyOnUpdate, hfe]
  | some e =>
    simp only [applyOnUpdate, hfe, Option.isNone_some, Bool.false_eq_true, if_false,
      Option.map_some']
    rw [List.find?_map]
    have hpf : ((fun m => decide (m.id = mid)) ∘
        (fun m => if m.id = mid then updateEntry ps prc prm m else m)) =
        (fun m : ChecklistEntry => decide (m.id = mid)) := by
      funext m
      by_cases hm : m.id = mid <;> simp [hm, updateEntry]
    rw [hpf, hfe]
    have hp := List.find?_some (p := fun m : ChecklistEntry => decide (m.id = mid)) hfe
    have he : e.id = mid := of_decide_eq_true hp
    simp [he]

/-- Status the member loop finally pushes for one member: skipped for
the manual-override and no-request branches, the (lower-cased)
validator status otherwise; none for the missing-lookup-id skip, which
pushes nothing. -/
def stepStatus (env : StepEnv) (r : MemberRec) : Option String :=
  if trimStr r.manualCheck ≠ "" then some "skipped"
  else if ¬hasDiscountRequest r.discountCategory then some "skipped"
  else if trimStr r.utsId = "" then none
  else some (if lowerStr (env.validate r).status ≠ "" then lowerStr (env.validate r).status
             else if (env.validate r).valid then "valid" else "invalid")

/-- Whether the finally pushed status advances progress.validated. -/
def stepIncrements (env : StepEnv) (r : MemberRec) : Bool :=
  match stepStatus env r with
  | some st => incStatuses.contains (lowerStr st)
  | none => false

/-- Progress total is untouched by one member step. -/
theorem processMember_total (env : StepEnv) (job : Job) (r : MemberRec) :
    (processMember env job r).1.progress.total = job.progress.total := by
  simp only [processMember]
  split_ifs <;> simp [applyOnUpdate_total]

set_option maxHeartbeats 1000000 in
/-- Progress validated after one member step: bumped (capped at the
total) exactly when the member's checklist entry exists and the finally
pushed status is in the increment list — so not for a not_found
validator outcome nor for the missing-lookup-id skip. -/
theorem processMember_validated (env : StepEnv) (job : Job) (r : MemberRec) :
    (processMember env job r).1.progress.validated =
      if ((job.members.find? (fun m => m.id = r.id)).isSome &&
          stepIncrements env r) = true then
        min (job.progress.validated + 1) job.progress.total
      else job.progress.validated := by
  have hls : lowerStr "skipped" = "skipped" := by decide
  have hlp : lowerStr "pending" = "pending" := by decide
  have hlv : lowerStr "valid" = "valid" := by decide
  have hli : lowerStr "invalid" = "invalid" := by decide
  simp only [processMember, stepIncrements, stepStatus]
  split_ifs <;>
    simp_all [applyOnUpdate_validated, applyOnUpdate_total, applyOnUpdate_find_self,
      pstr, incStatuses]
  all_goals
    rename_i hneg
    intro x hx hid hdis
    rcases hneg x hx hid with ⟨n1, n2, n3, n4, n5⟩
    rcases hdis with h | h | h | h | h
    exacts [absurd h n1, absurd h n2, absurd h n3, absurd h n4, absurd h n5]

set_option maxHeartbeats 1000000 in
/-- Checklist status after one member step: the finally pushed status
when one exists, else the pending mark left by the loop entry (the
missing-lookup-id skip never reports back). -/
theorem processMember_entry_status (env : StepEnv) (job : Job) (r : MemberRec)
    (e : ChecklistEntry) (hfe : job.members.find? (fun m => m.id = r.id) = some e) :
    ((processMember env job r).1.members.find? (fun m => m.id = r.id)).map
      (fun m => m.status) =
      some (match stepStatus env r with
            | some st => st
            | none => "pending") := by
  simp only [processMember, stepStatus]
  split_ifs <;>
    simp_all [applyOnUpdate_find_self, updateEntry, pstr]

/-- Over the whole member loop, progress.total is fixed and
progress.validated is non-decreasing and never exceeds the total. -/
theorem runMembers_progress_invariant (env : StepEnv) :
    ∀ (members : List MemberRec) (job : Job),
      job.progress.validated ≤ job.progress.total →
      (runMembers env job members).1.progress.total = job.progress.total ∧
      job.progress.validated ≤ (runMembers env job members).1.progress.validated ∧
      (runMembers env job members).1.progress.validated ≤ job.progress.total := by
  intro members
  induction members with
  | nil =>
    intro job h
    exact ⟨rfl, le_refl _, h⟩
  | cons m rest ih =>
    intro job h
    simp only [runMembers]
    have ht := processMember_total env job m
    have hv := processMember_validated env job m
    have h1 : (processMember env job m).1.progress.validated ≤
        (processMember env job m).1.progress.total := by
      rw [ht, hv]; split <;> omega
    obtain ⟨ihT, ihL, ihU⟩ := ih (processMember env job m).1 h1
    refine ⟨by rw [ihT, ht], ?_, ?_⟩
    · have hstep : job.progress.validated ≤ (processMember env job m).1.progress.validated := by
        rw [hv]; split <;> omega
      exact hstep.trans ihL
    · rw [ht] at ihU
      exact ihU

/-- Step oracle whose validator always reports not_found. -/
def envC8step : StepEnv :=
  { validate := fun _ => { status := "not_found", reason := "no matches" }
    persistFail := fun _ => none }

/-- Member whose validation comes back not_found. -/
def memC8 : MemberRec :=
  { id := "n1", name := "Nia Found", membershipType := "Full Membership"
    discountCategory := "Current UTS Student", utsId := "999"
    representative := "1", onboardingSubmitted := "1" }

/-- Gate-passing startup for the C8 run. -/
def startupC8 : StartupRec :=
  { newOnboardingFormSubmitted := "1", submissionConfirmation := "1" }

/-- Full environment for the C8 counterexample run. -/
def envC8 : RunEnv :=
  { fetch := .ok (startupC8, [memC8])
    step := envC8step
    payloadBuild := .ok ()
    renderPdf := .ok ()
    pdfCacheWrite := .ok ()
    attachUpdate := .ok ()
    stampDate := .ok () }

/-- Counterexample to C8 as stated: the single member's outcome is the
terminal not_found, the checklist entry shows it, yet progress.validated
is not advanced — the orchestrator's increment list omits not_found —
so the job reaches done with validated 0 less than total 1. -/
theorem done_with_validated_below_total_counterexample :
    (runOrchestration envC8 "T0").1.state = "done" ∧
    (runOrchestration envC8 "T0").1.progress.validated = 0 ∧
    (runOrchestration envC8 "T0").1.progress.total = 1 ∧
    ((runOrchestration envC8 "T0").1.members.map (fun m => m.status)) = ["not_found"] := by
  decide

/-- C8 (amended): over a member loop, progress.total is fixed while
progress.validated is non-decreasing and never exceeds the total; one
member step advances validated by one, capped at the total, exactly
when the member's checklist entry exists and the finally pushed status
is valid, invalid, ambiguous, error or skipped — a not_found outcome
updates the checklist entry but does not advance validated, and a
member skipped for a blank lookup id leaves the entry at pending and
validated unchanged — so a job can reach done with validated strictly
below total. -/
theorem checklist_progress_accounting :
    (∀ (env : StepEnv) (members : List MemberRec) (job : Job),
      job.progress.validated ≤ job.progress.total →
      (runMembers env job members).1.progress.total = job.progress.total ∧
      job.progress.validated ≤ (runMembers env job members).1.progress.validated ∧
      (runMembers env job members).1.progress.validated ≤ job.progress.total) ∧
    (∀ (env : StepEnv) (job : Job) (r : MemberRec),
      (processMember env job r).1.progress.validated =
        if ((job.members.find? (fun m => m.id = r.id)).isSome &&
            stepIncrements env r) = true then
          min (job.progress.validated + 1) job.progress.total
        else job.progress.validated) ∧
    (∀ (env : StepEnv) (job : Job) (r : MemberRec) (e : ChecklistEntry),
      job.members.find? (fun m => m.id = r.id) = some e →
      ((processMember env job r).1.members.find? (fun m => m.id = r.id)).map
        (fun m => m.status) =
        some (match stepStatus env r with
              | some st => st
              | none => "pending")) :=
  ⟨fun env members job h => runMembers_progress_invariant env members job h,
   fun env job r => processMember_validated env job r,
   fun env job r e hfe => processMember_entry_status env job r e hfe⟩

/-- Seeded one-member job for the C8 witness. -/
def jobC8 : Job :=
  { state := "running", startedAt := "T0", progress := ⟨0, 1⟩
    members := [seedMember memC8] }

/-- Witness for the amended C8: on the seeded not_found run the total is
kept, validated stays within bounds, and the member's checklist entry
ends at not_found. -/
theorem checklist_progress_accounting_witness :
    ((runMembers envC8step jobC8 [memC8]).1.progress.total = jobC8.progress.total ∧
     jobC8.progress.validated ≤ (runMembers envC8step jobC8 [memC8]).1.progress.validated ∧
     (runMembers envC8step jobC8 [memC8]).1.progress.validated ≤ jobC8.progress.total) ∧
    ((processMember envC8step jobC8 memC8).1.members.find?
      (fun m => m.id = memC8.id)).map (fun m => m.status) =
      some (match stepStatus envC8step memC8 with
            | some st => st
            | none => "pending") :=
  ⟨checklist_progress_accounting.1 envC8step [memC8] jobC8 (by decide),
   checklist_progress_accounting.2.2 envC8step jobC8 memC8 (seedMember memC8) (by decide)⟩
